import Mathlib

/-!
Shallow embedding of the 3D photo-tunnel layout and navigation engine
(`src/components/Experience.tsx` of the chronos 3D gallery repository),
with theorems checking the specification's claims about it.

Numeric modelling: the source computes in JS floating point; we idealise
numbers as exact rationals (`ℚ`) where the source arithmetic is
ring/division/min/max arithmetic, and as reals (`ℝ`) where trigonometric
functions enter.  A JS number that may be NaN is modelled as `Option ℝ`
with `none` playing the role of NaN; arithmetic propagates `none` the way
JS arithmetic propagates NaN.
-/

namespace Chronos

/-! ### Constants and data model -/

/-- Constant `TUNNEL_DEPTH = 150` (src/types.ts constants section). -/
def TUNNEL_DEPTH : ℚ := 150

/-- Constant `SPIRAL_RADIUS = 8` (src/types.ts constants section). -/
def SPIRAL_RADIUS : ℝ := 8

/-- The fields of `PhotoData` that the layout engine reads:
`id`, `timestamp` (epoch milliseconds), and the `month`/`year` labels. -/
structure PhotoData where
  id : ℤ
  timestamp : ℤ
  month : String
  year : String
deriving DecidableEq, Repr

/-- Function `dynamicDepth` from `SceneContent`:
`Math.max(neededDepth, Math.min(TUNNEL_DEPTH * 1.5, photos.length * 15))`
where `neededDepth = photos.length * maxSpacing` and `maxSpacing = 15`,
as a function of the item count. -/
def dynamicDepth (n : ℕ) : ℚ :=
  let maxSpacing : ℚ := 15
  let neededDepth : ℚ := (n : ℚ) * maxSpacing
  max neededDepth (min (TUNNEL_DEPTH * 1.5) ((n : ℚ) * 15))

/-- Stable insertion into a descending-by-timestamp list; equal timestamps
keep their relative order, matching JS's stable `Array.prototype.sort`
with comparator `(a, b) => b.timestamp - a.timestamp`. -/
def insertDesc (p : PhotoData) : List PhotoData → List PhotoData
  | [] => [p]
  | q :: t => if p.timestamp ≤ q.timestamp then q :: insertDesc p t else p :: q :: t

/-- Memo `sortedPhotos`: the photo list sorted descending by timestamp. -/
def sortedPhotos (photos : List PhotoData) : List PhotoData :=
  photos.foldr insertDesc []

/-- Value `rawSpacing` from `photoTransforms` and `milestones`:
`sortedPhotos.length > 1 ? dynamicDepth / (sortedPhotos.length - 1) : 15`. -/
def rawSpacing (n : ℕ) : ℚ :=
  if 1 < n then dynamicDepth n / ((n : ℚ) - 1) else 15

/-- Value `spacing = Math.min(rawSpacing, 15)`. -/
def spacing (n : ℕ) : ℚ := min (rawSpacing n) 15

/-- Local constant `firstPhotoZ = -10`. -/
def firstPhotoZ : ℚ := -10

/-! ### JS number model with NaN, and `getPathOffset` -/

/-- JS multiplication on possibly-NaN numbers (`none` = NaN). -/
def jmul : Option ℝ → Option ℝ → Option ℝ
  | some a, some b => some (a * b)
  | _, _ => none

/-- JS addition on possibly-NaN numbers (`none` = NaN). -/
def jadd : Option ℝ → Option ℝ → Option ℝ
  | some a, some b => some (a + b)
  | _, _ => none

/-- Model of `Math.sin`: NaN in, NaN out; finite in, finite out. -/
noncomputable def jsin : Option ℝ → Option ℝ := Option.map Real.sin

/-- Model of `Math.cos`: NaN in, NaN out; finite in, finite out. -/
noncomputable def jcos : Option ℝ → Option ℝ := Option.map Real.cos

/-- The guard `isNaN(v) ? 0 : v` at the return boundary of `getPathOffset`. -/
def nanGuard : Option ℝ → ℝ
  | none => 0
  | some x => x

/-- Function `getPathOffset` from `Experience.tsx`:
`x = Math.sin(z * 0.05) * 4 + Math.cos(z * 0.02) * 2`,
`y = Math.cos(z * 0.04) * 3 + Math.sin(z * 0.01) * 2`,
returning `{ x: isNaN(x) ? 0 : x, y: isNaN(y) ? 0 : y }`. -/
noncomputable def getPathOffset (z : Option ℝ) : ℝ × ℝ :=
  let x := jadd (jmul (jsin (jmul z (some 0.05))) (some 4))
                (jmul (jcos (jmul z (some 0.02))) (some 2))
  let y := jadd (jmul (jcos (jmul z (some 0.04))) (some 3))
                (jmul (jsin (jmul z (some 0.01))) (some 2))
  (nanGuard x, nanGuard y)

/-! ### Per-item transforms -/

/-- The per-item transform: position plus yaw, one per sorted item. -/
structure Transform where
  x : ℝ
  y : ℝ
  z : ℚ
  rotationY : ℝ

/-- Model of `Math.atan2(y, x)`: the argument of the complex number
`x + y i` (both agree on the range `(-π, π]`). -/
noncomputable def atan2 (y x : ℝ) : ℝ := Complex.arg ⟨x, y⟩

/-- The body of the `sortedPhotos.map((_, i) => ...)` callback in
`photoTransforms`, which depends only on the index `i` and the item
count `n`:
`angle = i * 0.9`, `z = firstPhotoZ - i * spacing`,
`radius = SPIRAL_RADIUS + (i % 2 === 0 ? 3 : -3) + Math.sin(i) * 2`,
`x = Math.cos(angle) * radius + offset.x`,
`y = Math.sin(angle) * radius + offset.y`,
`rotationY = -Math.atan2(x - offset.x, -z || 1) * 0.5`. -/
noncomputable def transformAt (n i : ℕ) : Transform :=
  let angle : ℝ := (i : ℝ) * 0.9
  let z : ℚ := firstPhotoZ - (i : ℚ) * spacing n
  let offset := getPathOffset (some ((z : ℚ) : ℝ))
  let radius : ℝ := SPIRAL_RADIUS + (if i % 2 = 0 then (3 : ℝ) else -3) + Real.sin (i : ℝ) * 2
  let x : ℝ := Real.cos angle * radius + offset.1
  let y : ℝ := Real.sin angle * radius + offset.2
  let rotationY : ℝ :=
    -(atan2 (x - offset.1) (if -((z : ℚ) : ℝ) = 0 then 1 else -((z : ℚ) : ℝ))) * 0.5
  ⟨x, y, z, rotationY⟩

/-- Memo `photoTransforms`: empty for an empty sorted list, otherwise one
transform per sorted item, computed from the item's index. -/
noncomputable def photoTransforms (photos : List PhotoData) : List Transform :=
  let sorted := sortedPhotos photos
  if sorted.length = 0 then []
  else sorted.mapIdx fun i _ => transformAt sorted.length i

/-! ### Milestones -/

/-- The grouping key `` `${p.month} ${p.year}` ``. -/
def groupKey (p : PhotoData) : String := p.month ++ " " ++ p.year

/-- A time milestone marker: `{ label, z, offset }`. -/
structure Milestone where
  label : String
  z : ℚ
  offset : ℝ × ℝ

/-- The `sortedPhotos.forEach` walk of `milestones`: carries the running
index `i` and the last emitted key `lastKey`, and emits a milestone
whenever the current item's group key differs from `lastKey`. -/
noncomputable def milestonesGo (sp : ℚ) : ℕ → String → List PhotoData → List Milestone
  | _, _, [] => []
  | i, lastKey, p :: rest =>
    let key := groupKey p
    if key ≠ lastKey then
      { label := key, z := firstPhotoZ - (i : ℚ) * sp,
        offset := getPathOffset (some ((firstPhotoZ - (i : ℚ) * sp : ℚ) : ℝ)) } ::
        milestonesGo sp (i + 1) key rest
    else milestonesGo sp (i + 1) lastKey rest

/-- Memo `milestones` from `SceneContent`: one marker per contiguous run of
items sharing a group key, walked over the sorted list with `lastKey`
initialised to the empty string. -/
noncomputable def milestones (photos : List PhotoData) : List Milestone :=
  milestonesGo (spacing (sortedPhotos photos).length) 0 "" (sortedPhotos photos)

/-- The number of contiguous runs in a list of keys, counting from a given
previous key: a position counts when its key differs from the key before it. -/
def runCountFrom (last : String) : List String → ℕ
  | [] => 0
  | k :: t => (if k = last then 0 else 1) + runCountFrom k t

/-- The number of distinct contiguous runs of equal keys in a list. -/
def runCount : List String → ℕ
  | [] => 0
  | k :: t => 1 + runCountFrom k t

/-! ### Visibility culling -/

/-- The per-item visibility test of the `useFrame` culling pass:
`dist = t.z - camZ`, visible iff `dist <= 5 && dist > -100`. -/
def visiblePred (camZ : ℚ) (t : Transform) : Bool :=
  decide (t.z - camZ ≤ 5) && decide (-100 < t.z - camZ)

/-- One recompute of the visible index set from the transforms and the
camera depth (the body of the throttled block in `useFrame`). -/
def computeVisible (ts : List Transform) (camZ : ℚ) : Finset ℕ :=
  ((ts.enum.filter fun p => visiblePred camZ p.2).map Prod.fst).toFinset

/-- The recompute plus the guarded state update:
`setVisibleIndices(next)` fires only when
`next.size !== current.size || ![...next].every(i => current.has(i))`.
Returns the resulting state and whether the setter fired. -/
def visStep (ts : List Transform) (camZ : ℚ) (current : Finset ℕ) : Finset ℕ × Bool :=
  let next := computeVisible ts camZ
  if next.card ≠ current.card ∨ ¬ next ⊆ current then (next, true) else (current, false)

/-! ### Focused-mode camera -/

/-- The camera pose mutated by the frame callback. -/
structure Camera where
  position : ℝ × ℝ × ℝ
  lookAt : ℝ × ℝ × ℝ

/-- Model of `THREE.Vector3.lerp`: `a + (b - a) * t` componentwise. -/
def lerp3 (a b : ℝ × ℝ × ℝ) (t : ℝ) : ℝ × ℝ × ℝ :=
  (a.1 + (b.1 - a.1) * t, a.2.1 + (b.2.1 - a.2.1) * t, a.2.2 + (b.2.2 - a.2.2) * t)

/-- JS array indexing `photoTransforms[index]` for a possibly negative
index: `undefined` (here `none`) when out of bounds. -/
def jsIndex (ts : List Transform) (idx : ℤ) : Option Transform :=
  if 0 ≤ idx then ts.get? idx.toNat else none

/-- The focused branch of the `useFrame` callback: runs the camera update
only under the guard
`index !== -1 && index < photoTransforms.length && photoTransforms[index]`;
otherwise the frame leaves the camera untouched. -/
noncomputable def focusedFrame (ts : List Transform) (idx : ℤ) (isMobile : Bool)
    (cam : Camera) : Camera :=
  if idx ≠ -1 ∧ idx < (ts.length : ℤ) then
    match jsIndex ts idx with
    | none => cam
    | some target =>
      let offsetX : ℝ := if isMobile then 0 else 5
      let offsetY : ℝ := if isMobile then 2 else 0
      let offsetZ : ℝ := if isMobile then 18 else 14
      let targetCamPos : ℝ × ℝ × ℝ :=
        (target.x + offsetX, target.y - offsetY, ((target.z : ℚ) : ℝ) + offsetZ)
      let look : ℝ × ℝ × ℝ :=
        (target.x + offsetX * 0.8, target.y - offsetY * 0.8, ((target.z : ℚ) : ℝ))
      { position := lerp3 cam.position targetCamPos 0.08, lookAt := look }
  else cam

/-! ### Autoplay driver -/

/-- The state of the autoplay loop: the scroll container's `scrollTop` and
whether a next tick is scheduled. -/
structure AutoState where
  scrollTop : ℚ
  running : Bool
deriving DecidableEq

/-- One `animate` tick of the autoplay effect: while running and focus is
null, advance `scrollTop` by `maxScroll * autoPlaySpeed * deltaTime`,
clamp at `maxScroll`, and stop scheduling once
`newScrollTop >= maxScroll - 1`. -/
def autoTick (maxScroll speed : ℚ) (focusedNow : Bool) (st : AutoState) (dt : ℚ) :
    AutoState :=
  if st.running = false then st
  else if focusedNow then { st with running := false }
  else
    let newScrollTop := min (st.scrollTop + maxScroll * speed * dt) maxScroll
    if maxScroll - 1 ≤ newScrollTop then { scrollTop := newScrollTop, running := false }
    else { scrollTop := newScrollTop, running := true }

/-- A whole autoplay run: fold the ticks over a list of frame deltas,
starting from `scrollTop = 0` with the loop scheduled, focus staying null. -/
def autoRun (maxScroll speed : ℚ) (dts : List ℚ) : AutoState :=
  dts.foldl (autoTick maxScroll speed false) { scrollTop := 0, running := true }

/-- Invariant of the autoplay loop after elapsed time `τ`: while running,
`scrollTop` tracks `maxScroll * speed * τ` exactly and is still strictly
below the stop band; once stopped, `scrollTop` sits in the stop band
`[maxScroll - 1, maxScroll]` and never exceeds the un-stopped value. -/
def AutoInv (ms s τ : ℚ) (st : AutoState) : Prop :=
  (st.running = true ∧ st.scrollTop = ms * s * τ ∧ ms * s * τ < ms - 1) ∨
  (st.running = false ∧ ms - 1 ≤ st.scrollTop ∧ st.scrollTop ≤ ms ∧
    st.scrollTop ≤ ms * s * τ)

/-! ### Scroll-channel ownership (Experience wrapper) -/

/-- Flag `enabled={focusedPhotoId === null}` on `ScrollControls` in the
`Experience` wrapper.  It receives `isAutoPlaying` as a prop but the
`enabled` flag does not consult it. -/
def scrollControlsEnabled (focusedPhotoId : Option ℤ) (isAutoPlaying : Bool) : Bool :=
  focusedPhotoId.isNone

/-- The autoplay effect in `SceneContent` runs its loop only when
`isAutoPlaying` is set and `focusedPhotoId` is null
(`if (!isAutoPlaying || focusedPhotoId !== null) { cancel; return; }`). -/
def autoplayEffectActive (isAutoPlaying : Bool) (focusedPhotoId : Option ℤ) : Bool :=
  isAutoPlaying && focusedPhotoId.isNone

/-! ### Concrete fixtures -/

/-- A two-item fixture (same month, increasing timestamps). -/
def demoTwo : List PhotoData := [⟨1, 100, "Jan", "2024"⟩, ⟨2, 200, "Jan", "2024"⟩]

/-- The spec's end-to-end scenario: three items timestamped January,
February, February of the same year. -/
def demo3 : List PhotoData :=
  [⟨1, 100, "Jan", "2024"⟩, ⟨2, 200, "Feb", "2024"⟩, ⟨3, 250, "Feb", "2024"⟩]

/-- A fixture whose items all share one group key. -/
def demoSame : List PhotoData := [⟨1, 100, "Mar", "2024"⟩, ⟨2, 200, "Mar", "2024"⟩]

/-! ### Helper lemmas about sorting and the layout -/

theorem length_insertDesc (p : PhotoData) (l : List PhotoData) :
    (insertDesc p l).length = l.length + 1 := by
  induction l with
  | nil => rfl
  | cons q t ih =>
    simp only [insertDesc]
    split <;> simp [ih]

theorem length_sortedPhotos (photos : List PhotoData) :
    (sortedPhotos photos).length = photos.length := by
  induction photos with
  | nil => rfl
  | cons p t ih =>
    simp only [sortedPhotos, List.foldr] at ih ⊢
    simp [length_insertDesc, ih]

theorem mem_insertDesc (x p : PhotoData) (l : List PhotoData) :
    x ∈ insertDesc p l ↔ x = p ∨ x ∈ l := by
  induction l with
  | nil => simp [insertDesc]
  | cons q t ih =>
    simp only [insertDesc]
    split
    · simp only [List.mem_cons, ih]
      tauto
    · simp only [List.mem_cons]

theorem mem_sortedPhotos (x : PhotoData) (photos : List PhotoData) :
    x ∈ sortedPhotos photos ↔ x ∈ photos := by
  induction photos with
  | nil => simp [sortedPhotos]
  | cons p t ih =>
    simp only [sortedPhotos, List.foldr] at ih ⊢
    rw [mem_insertDesc]
    simp only [List.mem_cons, ih]

/-- The `Math.max` against `neededDepth` dominates the `Math.min` cap, so
the depth budget is exactly 15 units per item. -/
theorem dynamicDepth_eq (n : ℕ) : dynamicDepth n = 15 * (n : ℚ) := by
  simp only [dynamicDepth]
  rw [max_eq_left (min_le_right _ _)]
  ring

theorem rawSpacing_ge (n : ℕ) : 15 ≤ rawSpacing n := by
  unfold rawSpacing
  split
  · rename_i h
    have hn : (1 : ℚ) < (n : ℚ) := by exact_mod_cast h
    rw [dynamicDepth_eq, le_div_iff₀ (by linarith)]
    linarith
  · exact le_refl 15

/-- The per-index spacing always evaluates to exactly the maximum spacing
constant 15. -/
theorem spacing_eq (n : ℕ) : spacing n = 15 := by
  unfold spacing
  exact min_eq_right (rawSpacing_ge n)

theorem transformAt_z (n i : ℕ) : (transformAt n i).z = -10 - (i : ℚ) * 15 := by
  simp only [transformAt, spacing_eq, firstPhotoZ]

theorem photoTransforms_eq (photos : List PhotoData) :
    photoTransforms photos =
      (sortedPhotos photos).mapIdx
        (fun i _ => transformAt (sortedPhotos photos).length i) := by
  by_cases h0 : (sortedPhotos photos).length = 0
  · rw [List.length_eq_zero] at h0
    simp [photoTransforms, h0]
  · simp [photoTransforms, h0]

theorem length_photoTransforms (photos : List PhotoData) :
    (photoTransforms photos).length = photos.length := by
  rw [photoTransforms_eq, List.length_mapIdx]
  exact length_sortedPhotos photos

theorem photoTransforms_get_z (photos : List PhotoData) (k : ℕ)
    (hk : k < (photoTransforms photos).length) :
    ((photoTransforms photos).get ⟨k, hk⟩).z = -10 - (k : ℚ) * 15 := by
  have hk1 : k < (sortedPhotos photos).length := by
    have e1 := length_photoTransforms photos
    have e2 := length_sortedPhotos photos
    omega
  revert hk
  rw [photoTransforms_eq]
  intro hk
  rw [List.get_mapIdx _ _ k hk1]
  exact transformAt_z _ _

theorem demoTwo_len : (photoTransforms demoTwo).length = 2 := by
  rw [length_photoTransforms]
  rfl

theorem demo3_len : (photoTransforms demo3).length = 3 := by
  rw [length_photoTransforms]
  rfl

/-! ### Helper lemmas about milestones -/

theorem groupKey_ne_empty (p : PhotoData) : groupKey p ≠ "" := by
  unfold groupKey
  intro h
  have hlen : (p.month ++ " " ++ p.year).length = 0 := by
    rw [h]
    rfl
  rw [String.length_append, String.length_append] at hlen
  have hone : (" " : String).length = 1 := rfl
  omega

theorem length_milestonesGo (sp : ℚ) (l : List PhotoData) : ∀ (i : ℕ) (lastKey : String),
    (milestonesGo sp i lastKey l).length = runCountFrom lastKey (l.map groupKey) := by
  induction l with
  | nil =>
    intro i lastKey
    rfl
  | cons p t ih =>
    intro i lastKey
    simp only [milestonesGo, List.map_cons, runCountFrom]
    by_cases h : groupKey p = lastKey
    · rw [if_neg (by simp [h]), if_pos h, Nat.zero_add, ih (i + 1) lastKey, h]
    · rw [if_pos (by simp [h]), if_neg h, List.length_cons, ih (i + 1) (groupKey p)]
      omega

theorem length_milestones (photos : List PhotoData) :
    (milestones photos).length = runCount ((sortedPhotos photos).map groupKey) := by
  unfold milestones
  rw [length_milestonesGo]
  cases hs : (sortedPhotos photos).map groupKey with
  | nil => rfl
  | cons k t =>
    simp only [runCountFrom, runCount]
    have hk : k ≠ "" := by
      have hmem : k ∈ (sortedPhotos photos).map groupKey := by
        rw [hs]
        exact List.mem_cons_self _ _
      rcases List.mem_map.mp hmem with ⟨p, _, hp⟩
      rw [← hp]
      exact groupKey_ne_empty p
    rw [if_neg hk]

theorem runCountFrom_all_eq (k : String) : ∀ t : List String,
    (∀ x ∈ t, x = k) → runCountFrom k t = 0 := by
  intro t
  induction t with
  | nil => intro _; rfl
  | cons a s ih =>
    intro hall
    have ha : a = k := hall a (List.mem_cons_self _ _)
    subst ha
    simp only [runCountFrom, if_pos rfl, if_true, Nat.zero_add]
    exact ih fun x hx => hall x (List.mem_cons_of_mem _ hx)

theorem runCount_const (l : List String) (k : String) (hne : l ≠ [])
    (hall : ∀ x ∈ l, x = k) : runCount l = 1 := by
  cases l with
  | nil => exact absurd rfl hne
  | cons a t =>
    have ha : a = k := hall a (List.mem_cons_self _ _)
    simp only [runCount, ha]
    rw [runCountFrom_all_eq k t fun x hx => hall x (List.mem_cons_of_mem _ hx)]

end Chronos

open Chronos

/-- C1: for every item list, after sorting descending by timestamp, the
computed transforms have strictly decreasing z: for all indices `i < j`,
`transform[i].z > transform[j].z`. -/
theorem C1_transforms_z_strictly_decreasing (photos : List PhotoData) (i j : ℕ)
    (hi : i < (photoTransforms photos).length)
    (hj : j < (photoTransforms photos).length) (hij : i < j) :
    ((photoTransforms photos).get ⟨i, hi⟩).z >
      ((photoTransforms photos).get ⟨j, hj⟩).z := by
  rw [photoTransforms_get_z, photoTransforms_get_z]
  have hq : (i : ℚ) < (j : ℚ) := by exact_mod_cast hij
  linarith

/-- C1 witness: on the concrete two-item list `demoTwo`, the transform at
index 0 sits at strictly greater z than the transform at index 1. -/
theorem C1_witness :
    ((photoTransforms demoTwo).get ⟨0, by rw [demoTwo_len]; decide⟩).z >
      ((photoTransforms demoTwo).get ⟨1, by rw [demoTwo_len]; decide⟩).z :=
  C1_transforms_z_strictly_decreasing demoTwo 0 1
    (by rw [demoTwo_len]; decide) (by rw [demoTwo_len]; decide) (by decide)

/-- C2 counterexample: the depth budget is not capped sub-linearly beyond a
threshold count.  At 16 items the budget (240) already exceeds the would-be
cap `TUNNEL_DEPTH * 1.5 = 225`, and at 160 items it is exactly 10 times the
budget at 16 items: growth stays exactly linear past the cap. -/
theorem C2_counterexample :
    TUNNEL_DEPTH * 1.5 = 225 ∧ dynamicDepth 16 = 240 ∧
      dynamicDepth 160 = 2400 ∧ dynamicDepth 160 = 10 * dynamicDepth 16 := by
  simp only [dynamicDepth_eq, TUNNEL_DEPTH]
  norm_num

/-- C2 amended: the path depth budget equals 15 units per item — the
`Math.max` against `neededDepth` dominates the `Math.min` cap, so the
budget is exactly linear in item count (never sub-linear), and a single
item still gets the minimum usable depth of 15. -/
theorem C2_depth_budget_linear :
    (∀ n : ℕ, dynamicDepth n = 15 * (n : ℚ)) ∧ dynamicDepth 1 = 15 := by
  refine ⟨dynamicDepth_eq, ?_⟩
  rw [dynamicDepth_eq]
  norm_num

/-- C3: for every item count, the spacing between consecutive transforms is
at most the maximum spacing constant 15; for counts at most 1 the spacing
computation takes the fallback branch (so the division `dynamicDepth /
(count - 1)` is never evaluated), and whenever the division is evaluated
its divisor is nonzero. -/
theorem C3_spacing_bounded_and_division_safe :
    (∀ (photos : List PhotoData) (i : ℕ)
        (hi : i < (photoTransforms photos).length)
        (hj : i + 1 < (photoTransforms photos).length),
        ((photoTransforms photos).get ⟨i, hi⟩).z -
          ((photoTransforms photos).get ⟨i + 1, hj⟩).z ≤ 15) ∧
    (∀ n : ℕ, spacing n ≤ 15) ∧
    (∀ n : ℕ, n ≤ 1 → rawSpacing n = 15) ∧
    (∀ n : ℕ, 1 < n → ((n : ℚ) - 1) ≠ 0) := by
  refine ⟨?_, ?_, ?_, ?_⟩
  · intro photos i hi hj
    rw [photoTransforms_get_z, photoTransforms_get_z]
    push_cast
    linarith
  · intro n
    simp [spacing_eq]
  · intro n hn
    unfold rawSpacing
    rw [if_neg (by omega)]
  · intro n hn
    have hq : (1 : ℚ) < (n : ℚ) := by exact_mod_cast hn
    linarith

/-- C3 witness: the consecutive spacing bound at the concrete list
`demoTwo`, the spacing bound at count 5, the fallback at count 1, and the
nonzero divisor at count 2. -/
theorem C3_witness :
    (((photoTransforms demoTwo).get ⟨0, by rw [demoTwo_len]; decide⟩).z -
        ((photoTransforms demoTwo).get ⟨1, by rw [demoTwo_len]; decide⟩).z ≤ 15) ∧
      spacing 5 ≤ 15 ∧ rawSpacing 1 = 15 ∧ ((2 : ℕ) : ℚ) - 1 ≠ 0 := by
  refine ⟨?_, ?_, ?_, ?_⟩
  · exact C3_spacing_bounded_and_division_safe.1 demoTwo 0
      (by rw [demoTwo_len]; decide) (by rw [demoTwo_len]; decide)
  · exact C3_spacing_bounded_and_division_safe.2.1 5
  · exact C3_spacing_bounded_and_division_safe.2.2.1 1 (by decide)
  · exact C3_spacing_bounded_and_division_safe.2.2.2 2 (by decide)

/-- C10: for every item count the computed spacing between consecutive
transforms equals exactly the maximum spacing constant 15 (the depth budget
evaluates to `n * 15`, so `depthBudget / (n - 1) ≥ 15` and the min with 15
is 15); total depth therefore grows linearly with item count. -/
theorem C10_spacing_exactly_max :
    (∀ n : ℕ, spacing n = 15) ∧
    (∀ n : ℕ, dynamicDepth n = 15 * (n : ℚ)) ∧
    (∀ (photos : List PhotoData) (i : ℕ)
        (hi : i < (photoTransforms photos).length)
        (hj : i + 1 < (photoTransforms photos).length),
        ((photoTransforms photos).get ⟨i, hi⟩).z -
          ((photoTransforms photos).get ⟨i + 1, hj⟩).z = 15) := by
  refine ⟨spacing_eq, dynamicDepth_eq, ?_⟩
  intro photos i hi hj
  rw [photoTransforms_get_z, photoTransforms_get_z]
  push_cast
  ring

/-- C10 witness: on the concrete list `demoTwo` the gap between the two
consecutive transforms is exactly 15. -/
theorem C10_witness :
    ((photoTransforms demoTwo).get ⟨0, by rw [demoTwo_len]; decide⟩).z -
      ((photoTransforms demoTwo).get ⟨1, by rw [demoTwo_len]; decide⟩).z = 15 :=
  C10_spacing_exactly_max.2.2 demoTwo 0
    (by rw [demoTwo_len]; decide) (by rw [demoTwo_len]; decide)

/-- C4: the path offset function is pure and total — for every finite real
depth it returns finite `(x, y)` (bounded by the sums of the sinusoid
amplitudes, 6 and 5), and a NaN produced anywhere inside the computation is
replaced with 0 before return (a NaN input propagates through every
intermediate term and the boundary guard maps it to `(0, 0)`). -/
theorem C4_path_offset_total_and_guarded :
    (∀ z : ℝ, |(getPathOffset (some z)).1| ≤ 6 ∧ |(getPathOffset (some z)).2| ≤ 5) ∧
      getPathOffset none = (0, 0) := by
  constructor
  · intro z
    constructor
    · show |nanGuard (jadd (jmul (jsin (jmul (some z) (some 0.05))) (some 4))
        (jmul (jcos (jmul (some z) (some 0.02))) (some 2)))| ≤ 6
      simp only [jmul, jsin, jcos, jadd, Option.map_some', nanGuard]
      have h1 := Real.abs_sin_le_one (z * 0.05)
      have h2 := Real.abs_cos_le_one (z * 0.02)
      have h3 := abs_add (Real.sin (z * 0.05) * 4) (Real.cos (z * 0.02) * 2)
      rw [abs_mul, abs_mul] at h3
      have h4 : |(4 : ℝ)| = 4 := by norm_num
      have h5 : |(2 : ℝ)| = 2 := by norm_num
      rw [h4, h5] at h3
      nlinarith
    · show |nanGuard (jadd (jmul (jcos (jmul (some z) (some 0.04))) (some 3))
        (jmul (jsin (jmul (some z) (some 0.01))) (some 2)))| ≤ 5
      simp only [jmul, jsin, jcos, jadd, Option.map_some', nanGuard]
      have h1 := Real.abs_cos_le_one (z * 0.04)
      have h2 := Real.abs_sin_le_one (z * 0.01)
      have h3 := abs_add (Real.cos (z * 0.04) * 3) (Real.sin (z * 0.01) * 2)
      rw [abs_mul, abs_mul] at h3
      have h4 : |(3 : ℝ)| = 3 := by norm_num
      have h5 : |(2 : ℝ)| = 2 := by norm_num
      rw [h4, h5] at h3
      nlinarith
  · rfl

/-- C5: for every item list, the number of milestones equals the number of
distinct contiguous group-key runs in the sorted (descending-timestamp)
list; when all items share one group key exactly one milestone is produced;
and on the January/February/February scenario `demo3` exactly 2 milestones
and 3 transforms with strictly decreasing z are produced. -/
theorem C5_milestones_match_runs :
    (∀ photos : List PhotoData,
        (milestones photos).length = runCount ((sortedPhotos photos).map groupKey)) ∧
    (∀ (photos : List PhotoData) (k : String), photos ≠ [] →
        (∀ p ∈ photos, groupKey p = k) → (milestones photos).length = 1) ∧
    ((milestones demo3).length = 2 ∧ (photoTransforms demo3).length = 3 ∧
      ((photoTransforms demo3).get ⟨0, by rw [demo3_len]; decide⟩).z >
        ((photoTransforms demo3).get ⟨1, by rw [demo3_len]; decide⟩).z ∧
      ((photoTransforms demo3).get ⟨1, by rw [demo3_len]; decide⟩).z >
        ((photoTransforms demo3).get ⟨2, by rw [demo3_len]; decide⟩).z) := by
  refine ⟨length_milestones, ?_, ?_, demo3_len, ?_, ?_⟩
  · intro photos k hne hall
    rw [length_milestones]
    apply runCount_const _ k
    · intro hmap
      apply hne
      have hl := congrArg List.length hmap
      rw [List.length_map, length_sortedPhotos] at hl
      exact List.length_eq_zero.mp hl
    · intro x hx
      rcases List.mem_map.mp hx with ⟨p, hp, rfl⟩
      exact hall p ((mem_sortedPhotos p photos).mp hp)
  · rw [length_milestones]
    decide
  · rw [photoTransforms_get_z, photoTransforms_get_z]
    norm_num
  · rw [photoTransforms_get_z, photoTransforms_get_z]
    norm_num

/-- C5 witness: on the concrete fixture `demoSame`, whose two items share
the group key `"Mar 2024"`, exactly one milestone is produced. -/
theorem C5_witness : (milestones demoSame).length = 1 :=
  C5_milestones_match_runs.2.1 demoSame "Mar 2024" (by decide) (by decide)

/-- C8: recomputing the visible set with unchanged camera depth and
transforms yields the same set (the stored state always equals the freshly
recomputed set after one step), and a recompute whose result equals the
current visible set fires no downstream state update — in particular a
second recompute right after any step never fires the setter. -/
theorem C8_visibility_recompute_short_circuits :
    (∀ (ts : List Transform) (camZ : ℚ) (cur : Finset ℕ),
        computeVisible ts camZ = cur → visStep ts camZ cur = (cur, false)) ∧
    (∀ (ts : List Transform) (camZ : ℚ) (cur : Finset ℕ),
        (visStep ts camZ cur).1 = computeVisible ts camZ) ∧
    (∀ (ts : List Transform) (camZ : ℚ) (cur : Finset ℕ),
        (visStep ts camZ (visStep ts camZ cur).1).2 = false) := by
  have hnochange : ∀ (ts : List Transform) (camZ : ℚ) (cur : Finset ℕ),
      computeVisible ts camZ = cur → visStep ts camZ cur = (cur, false) := by
    intro ts camZ cur h
    simp only [visStep, h]
    rw [if_neg]
    push_neg
    exact ⟨rfl, Finset.Subset.refl cur⟩
  have hfix : ∀ (ts : List Transform) (camZ : ℚ) (cur : Finset ℕ),
      (visStep ts camZ cur).1 = computeVisible ts camZ := by
    intro ts camZ cur
    simp only [visStep]
    split_ifs with h
    · rfl
    · push_neg at h
      exact (Finset.eq_of_subset_of_card_le h.2 (le_of_eq h.1.symm)).symm
  refine ⟨hnochange, hfix, ?_⟩
  intro ts camZ cur
  have hstep := hnochange ts camZ (visStep ts camZ cur).1 (hfix ts camZ cur).symm
  rw [hstep]

/-- C8 witness: with no transforms, camera depth 0 and current visible set
∅, the recompute yields ∅ again and the setter does not fire. -/
theorem C8_witness : visStep [] 0 ∅ = (∅, false) :=
  C8_visibility_recompute_short_circuits.1 [] 0 ∅ rfl

/-- C9: in focused mode, if the resolved focused index is -1 or out of
range for the current transform array, the camera controller performs no
camera update for that frame, and such a skipped frame has no effect on how
the next frame (with whatever inputs) is processed. -/
theorem C9_focused_out_of_range_skips :
    (∀ (ts : List Transform) (idx : ℤ) (m : Bool) (cam : Camera),
        (idx = -1 ∨ idx < 0 ∨ (ts.length : ℤ) ≤ idx) →
        focusedFrame ts idx m cam = cam) ∧
    (∀ (ts ts2 : List Transform) (idx idx2 : ℤ) (m : Bool) (cam : Camera),
        (idx = -1 ∨ idx < 0 ∨ (ts.length : ℤ) ≤ idx) →
        focusedFrame ts2 idx2 m (focusedFrame ts idx m cam) =
          focusedFrame ts2 idx2 m cam) := by
  have hskip : ∀ (ts : List Transform) (idx : ℤ) (m : Bool) (cam : Camera),
      (idx = -1 ∨ idx < 0 ∨ (ts.length : ℤ) ≤ idx) →
      focusedFrame ts idx m cam = cam := by
    intro ts idx m cam h
    rcases h with h | h | h
    · have hg : ¬ (idx ≠ -1 ∧ idx < (ts.length : ℤ)) := fun hc => hc.1 h
      simp only [focusedFrame, if_neg hg]
    · by_cases hg : idx ≠ -1 ∧ idx < (ts.length : ℤ)
      · have hnone : jsIndex ts idx = none := by
          unfold jsIndex
          rw [if_neg (by omega)]
        simp only [focusedFrame, if_pos hg, hnone]
      · simp only [focusedFrame, if_neg hg]
    · have hg : ¬ (idx ≠ -1 ∧ idx < (ts.length : ℤ)) := by
        intro hc
        omega
      simp only [focusedFrame, if_neg hg]
  refine ⟨hskip, ?_⟩
  intro ts ts2 idx idx2 m cam h
  rw [hskip ts idx m cam h]

/-- C9 witness: with an empty transform array and resolved index 0 (out of
range), the frame leaves the default camera untouched. -/
theorem C9_witness :
    focusedFrame [] 0 false ⟨(0, 0, 0), (0, 0, 0)⟩ = ⟨(0, 0, 0), (0, 0, 0)⟩ :=
  C9_focused_out_of_range_skips.1 [] 0 false ⟨(0, 0, 0), (0, 0, 0)⟩
    (Or.inr (Or.inr (by decide)))

/-! ### Autoplay loop lemmas -/

theorem autoTick_inv (ms s : ℚ) (hms : 1 < ms) (hs : 0 ≤ s) (τ dt : ℚ) (hdt : 0 ≤ dt)
    (st : AutoState) (h : AutoInv ms s τ st) :
    AutoInv ms s (τ + dt) (autoTick ms s false st dt) := by
  have hms0 : 0 ≤ ms * s := mul_nonneg (by linarith) hs
  rcases h with ⟨hrun, heq, hlt⟩ | ⟨hrun, h1, h2, h3⟩
  · unfold autoTick
    rw [hrun]
    simp only [Bool.true_eq_false, if_false, Bool.false_eq_true]
    rw [heq]
    have hr : ms * s * τ + ms * s * dt = ms * s * (τ + dt) := by ring
    rw [hr]
    by_cases hband : ms - 1 ≤ min (ms * s * (τ + dt)) ms
    · rw [if_pos hband]
      right
      exact ⟨rfl, hband, min_le_right _ _, min_le_left _ _⟩
    · rw [if_neg hband]
      left
      push_neg at hband
      rcases min_lt_iff.mp hband with hb | hb
      · have hmin : min (ms * s * (τ + dt)) ms = ms * s * (τ + dt) :=
          min_eq_left (by linarith)
        exact ⟨rfl, hmin, by linarith [hmin ▸ hband]⟩
      · linarith
  · unfold autoTick
    rw [hrun, if_pos rfl]
    right
    refine ⟨hrun, h1, h2, ?_⟩
    have : ms * s * τ ≤ ms * s * (τ + dt) := by nlinarith
    linarith

theorem autoRun_inv_aux (ms s : ℚ) (hms : 1 < ms) (hs : 0 ≤ s) :
    ∀ (dts : List ℚ), (∀ d ∈ dts, 0 ≤ d) → ∀ (τ : ℚ) (st : AutoState), AutoInv ms s τ st →
      AutoInv ms s (τ + dts.sum) (dts.foldl (autoTick ms s false) st) := by
  intro dts
  induction dts with
  | nil =>
    intro _ τ st h
    simpa using h
  | cons d t ih =>
    intro hpos τ st h
    simp only [List.foldl_cons, List.sum_cons]
    have h1 := autoTick_inv ms s hms hs τ d (hpos d (List.mem_cons_self _ _)) st h
    have h2 := ih (fun x hx => hpos x (List.mem_cons_of_mem _ hx)) (τ + d) _ h1
    rw [show τ + (d + t.sum) = τ + d + t.sum from by ring]
    exact h2

theorem autoRun_inv (ms s : ℚ) (hms : 1 < ms) (hs : 0 ≤ s) (dts : List ℚ)
    (hpos : ∀ d ∈ dts, 0 ≤ d) : AutoInv ms s dts.sum (autoRun ms s dts) := by
  have h0 : AutoInv ms s 0 ⟨0, true⟩ := by
    left
    refine ⟨rfl, by ring, ?_⟩
    rw [mul_zero]
    linarith
  have h := autoRun_inv_aux ms s hms hs dts hpos 0 ⟨0, true⟩ h0
  simpa [autoRun] using h

/-- C6 counterexample: with `maxScroll = 1000`, speed `s = 0.001` and ticks
of 999 s then 1 s (total elapsed `1/s = 1000 s`), the first tick lands
exactly on the stop threshold `maxScroll - 1 = 999`, the loop stops, the
second scheduled tick is a no-op, and progress stays at `999/1000` forever:
it does not clamp to 1 after elapsed time `≥ 1/s`. -/
theorem C6_counterexample :
    (1 : ℚ) / (0.001 : ℚ) ≤ ([999, 1] : List ℚ).sum ∧
      (autoRun 1000 0.001 [999, 1]).scrollTop = 999 ∧
      (autoRun 1000 0.001 [999, 1]).scrollTop / 1000 ≠ 1 ∧
      (autoRun 1000 0.001 [999, 1]).running = false := by
  have h1 : autoTick 1000 0.001 false ⟨0, true⟩ 999 = ⟨999, false⟩ := by
    unfold autoTick
    have hmin : min ((0 : ℚ) + 1000 * 0.001 * 999) 1000 = 999 := by norm_num
    simp only [Bool.true_eq_false, if_false, Bool.false_eq_true, hmin]
    rw [if_pos (by norm_num)]
  have h2 : autoTick 1000 0.001 false ⟨999, false⟩ 1 = ⟨999, false⟩ := by
    unfold autoTick
    rw [if_pos rfl]
  have hrun : autoRun 1000 0.001 [999, 1] = ⟨999, false⟩ := by
    simp only [autoRun, List.foldl_cons, List.foldl_nil, h1, h2]
  rw [hrun]
  refine ⟨by norm_num, rfl, by norm_num, rfl⟩

/-- C6 amended: each autoplay tick (while running and focus is null)
advances `scrollTop` by `maxScroll * speed * deltaTime` and clamps at
`maxScroll`, so progress never exceeds the path end, and reaching the clamp
ceiling stops the scheduling; starting from 0 with speed `s`, progress
equals `s * t` exactly as long as `maxScroll * s * t < maxScroll - 1`, but
the loop stops scheduling as soon as the updated value is within one scroll
pixel of the end (`newScrollTop ≥ maxScroll - 1`), so after elapsed time
`≥ 1/s` the final value lies in `[maxScroll - 1, maxScroll]` — within one
pixel of the end — rather than being exactly `maxScroll`. -/
theorem C6_autoplay_clamped_within_one_pixel :
    (∀ (ms s : ℚ) (dts : List ℚ), 1 < ms → 0 ≤ s → (∀ d ∈ dts, 0 ≤ d) →
        0 ≤ (autoRun ms s dts).scrollTop ∧ (autoRun ms s dts).scrollTop ≤ ms) ∧
    (∀ (ms s dt : ℚ) (st : AutoState), st.running = true →
        (autoTick ms s false st dt).scrollTop = ms →
        (autoTick ms s false st dt).running = false) ∧
    (∀ (ms s : ℚ) (dts : List ℚ), 1 < ms → 0 ≤ s → (∀ d ∈ dts, 0 ≤ d) →
        ms * s * dts.sum < ms - 1 →
        (autoRun ms s dts).scrollTop = ms * s * dts.sum ∧
          (autoRun ms s dts).running = true) ∧
    (∀ (ms s : ℚ) (dts : List ℚ), 1 < ms → 0 < s → (∀ d ∈ dts, 0 ≤ d) →
        1 / s ≤ dts.sum →
        ms - 1 ≤ (autoRun ms s dts).scrollTop ∧ (autoRun ms s dts).scrollTop ≤ ms ∧
          (autoRun ms s dts).running = false) := by
  refine ⟨?_, ?_, ?_, ?_⟩
  · intro ms s dts hms hs hpos
    rcases autoRun_inv ms s hms hs dts hpos with ⟨_, heq, hlt⟩ | ⟨_, h1, h2, _⟩
    · have hτ : 0 ≤ dts.sum := List.sum_nonneg hpos
      have hms0 : 0 ≤ ms * s := mul_nonneg (by linarith) hs
      constructor
      · rw [heq]
        positivity
      · linarith
    · constructor <;> linarith
  · intro ms s dt st hrun htop
    unfold autoTick at htop ⊢
    rw [hrun] at htop ⊢
    simp only [Bool.true_eq_false, if_false, Bool.false_eq_true] at htop ⊢
    by_cases hband : ms - 1 ≤ min (st.scrollTop + ms * s * dt) ms
    · rw [if_pos hband]
    · rw [if_neg hband] at htop ⊢
      exfalso
      push_neg at hband
      simp only at htop
      rw [htop] at hband
      linarith
  · intro ms s dts hms hs hpos hsmall
    rcases autoRun_inv ms s hms hs dts hpos with ⟨hrun, heq, _⟩ | ⟨_, h1, _, h3⟩
    · exact ⟨heq, hrun⟩
    · linarith
  · intro ms s dts hms hs hpos hbig
    have hkey : ms ≤ ms * s * dts.sum := by
      have h1 : 1 ≤ s * dts.sum := by
        rw [div_le_iff₀ hs] at hbig
        linarith [mul_comm s dts.sum]
      nlinarith
    rcases autoRun_inv ms s hms (le_of_lt hs) dts hpos with ⟨_, _, hlt⟩ | ⟨hrun, h1, h2, _⟩
    · linarith
    · exact ⟨h1, h2, hrun⟩

/-- C6 witness: with `maxScroll = 100`, speed 1 and a single tick of 0.5 s
(still below the stop band), the scroll position advances exactly by
`maxScroll * speed * elapsed` and the loop keeps running. -/
theorem C6_witness :
    (autoRun 100 1 [0.5]).scrollTop = 100 * 1 * ([0.5] : List ℚ).sum ∧
      (autoRun 100 1 [0.5]).running = true :=
  C6_autoplay_clamped_within_one_pixel.2.2.1 100 1 [0.5] (by norm_num) (by norm_num)
    (by
      intro d hd
      rw [List.mem_singleton] at hd
      rw [hd]
      norm_num)
    (by
      rw [List.sum_cons, List.sum_nil]
      norm_num)

/-- C7 counterexample: with autoplay enabled and no focused photo, the
human scroll channel is still enabled (`ScrollControls` only consults the
focus, not the autoplay flag) while the autoplay writer is active too —
the two writers coexist, so enabling autoplay does not suppress the human
source. -/
theorem C7_counterexample :
    scrollControlsEnabled none true = true ∧ autoplayEffectActive true none = true :=
  ⟨rfl, rfl⟩

/-- C7 amended: the human scroll input channel is disabled exactly when a
photo is focused, independently of autoplay; whenever the autoplay writer
is active the human channel is enabled as well (so during autoplay with no
focus the traversal-progress source has two simultaneous writers), and the
channel is suppressed only by a non-null focus. -/
theorem C7_scroll_channel_gated_by_focus_only :
    (∀ (f : Option ℤ) (a : Bool), scrollControlsEnabled f a = true ↔ f = none) ∧
    (∀ (a : Bool) (f : Option ℤ), autoplayEffectActive a f = true →
        scrollControlsEnabled f a = true) ∧
    (∀ (f : Option ℤ) (a : Bool), f ≠ none → scrollControlsEnabled f a = false) := by
  refine ⟨?_, ?_, ?_⟩
  · intro f a
    cases f <;> simp [scrollControlsEnabled]
  · intro a f h
    unfold autoplayEffectActive at h
    unfold scrollControlsEnabled
    exact (Bool.and_eq_true _ _ |>.mp h).2
  · intro f a h
    cases f with
    | none => exact absurd rfl h
    | some v => rfl

/-- C7 witness: when the autoplay writer is active (autoplay on, focus
null), the human scroll channel is concretely enabled as well. -/
theorem C7_witness : scrollControlsEnabled none true = true :=
  C7_scroll_channel_gated_by_focus_only.2.1 true none rfl
